import Mathlib

/-!
Shallow embedding of the mini-scada-hmi-dashboard state/reducer layer
(src/assets/state.js, src/assets/utils.js, src/assets/handlers.js,
src/assets/app.js, constants from src/assets/templates.js).

Machine numbers (ids, timestamps) are modelled as `Int`; fractional
arithmetic (minutes, probabilities) as `ℚ`.  JavaScript objects used as
string-keyed maps (the commissioning checklist, parsed JSON documents)
are modelled as association lists in insertion order.
-/

namespace Scada

/-- An event record `{id, machineId, timestamp, severity, message, acknowledged}`
(state.js `eventsReducer` / data model).  Severity is a plain string
(`"INFO"`, `"WARN"`, `"ALARM"`) exactly as in the source. -/
structure Event where
  id : Int
  machineId : Int
  timestamp : Int
  severity : String
  message : String
  acknowledged : Bool
deriving Repr, DecidableEq

/-- A machine record `{id, name, status, lastHeartbeat, healthScore, unitsPerMin}`.
Status is a plain string (`"RUN"`, `"IDLE"`, `"DOWN"`), matching
`MACHINE_STATUS` in templates.js (`RUNNING: 'RUN'`, `IDLE: 'IDLE'`, `DOWN: 'DOWN'`). -/
structure Machine where
  id : Int
  name : String
  status : String
  lastHeartbeat : Int
  healthScore : Int
  unitsPerMin : Int
deriving Repr, DecidableEq

/-- A downtime entry `{id, machineId, start, end, reason, notes}`.
The JavaScript field `end` is a Lean keyword, so it is rendered `end_`. -/
structure DowntimeEntry where
  id : Int
  machineId : Int
  start : Int
  end_ : Int
  reason : String
  notes : String
deriving Repr, DecidableEq

/-- One commissioning checklist item `{item, checked}`. -/
structure CItem where
  item : String
  checked : Bool
deriving Repr, DecidableEq

/-- The checklist object `{SectionName: [{item, checked}], ...}` as an
association list in insertion order (JavaScript object keys are unique). -/
abbrev Checklist := List (String × List CItem)

/-- The `updates` object of an UPDATE_MACHINE action: a partial record that
is spread over the machine (`{...machine, ...updates}`).  `none` fields are
absent from the object. -/
structure MachineUpdates where
  name : Option String
  status : Option String
  lastHeartbeat : Option Int
  healthScore : Option Int
  unitsPerMin : Option Int
deriving Repr, DecidableEq

/-- The tagged-union action objects `{type, payload}` built by the action
creators in state.js; one constructor per `ActionTypes` member. -/
inductive Action where
  | addEvent (machineId : Int) (severity : String) (message : String) (timestamp : Int)
  | acknowledgeEvent (eventId : Int)
  | updateMachine (machineId : Int) (updates : MachineUpdates)
  | setMachineStatus (machineId : Int) (status : String)
  | addDowntime (machineId : Int) (reason : String) (notes : String) (start : Int) (end_ : Int)
  | startSimulation
  | stopSimulation
  | tickSimulation (timestamp : Int)
  | toggleChecklistItem (sectionName : String) (itemName : String)
  | loadChecklist (checklist : Checklist)
  | updateMetrics
deriving Repr, DecidableEq

/-- `events.length > 0 ? Math.max(...events.map(e => e.id)) + 1 : 1`
(state.js line 160).  `Math.max` over a non-empty spread is a fold of
binary max over the arguments. -/
def newEventId (events : List Event) : Int :=
  match events.map (fun e => e.id) with
  | [] => 1
  | x :: xs => xs.foldl max x + 1

/-- `eventsReducer(events, action, maxEvents)` (state.js lines 155-183).
ADD_EVENT synthesizes a new event, prepends it and truncates to
`maxEvents`; ACKNOWLEDGE_EVENT maps over the list flipping the matching
event's `acknowledged` flag; the default branch returns the input. -/
def eventsReducer (events : List Event) (action : Action) (maxEvents : Nat) : List Event :=
  match action with
  | .addEvent machineId severity message timestamp =>
      let newEvent : Event :=
        { id := newEventId events
          machineId := machineId
          timestamp := timestamp
          severity := severity
          message := message
          acknowledged := false }
      (newEvent :: events).take maxEvents
  | .acknowledgeEvent eventId =>
      events.map (fun event =>
        if event.id = eventId then { event with acknowledged := true } else event)
  | _ => events

/-- `{...machine, ...updates}`: each property present in `updates`
overrides the machine's value (the app never puts `id` in `updates`). -/
def applyUpdates (machine : Machine) (u : MachineUpdates) : Machine :=
  { id := machine.id
    name := u.name.getD machine.name
    status := u.status.getD machine.status
    lastHeartbeat := u.lastHeartbeat.getD machine.lastHeartbeat
    healthScore := u.healthScore.getD machine.healthScore
    unitsPerMin := u.unitsPerMin.getD machine.unitsPerMin }

/-- `machinesReducer(machines, action)` (state.js lines 192-223). -/
def machinesReducer (machines : List Machine) (action : Action) : List Machine :=
  match action with
  | .updateMachine machineId updates =>
      machines.map (fun machine =>
        if machine.id = machineId then applyUpdates machine updates else machine)
  | .setMachineStatus machineId status =>
      machines.map (fun machine =>
        if machine.id = machineId then { machine with status := status } else machine)
  | .tickSimulation timestamp =>
      machines.map (fun machine => { machine with lastHeartbeat := timestamp })
  | _ => machines

/-- `Math.max(...downtimeEntries.map(d => d.id)) + 1` or `1` when empty
(state.js lines 237-239). -/
def newDowntimeId (downtimeEntries : List DowntimeEntry) : Int :=
  match downtimeEntries.map (fun d => d.id) with
  | [] => 1
  | x :: xs => xs.foldl max x + 1

/-- `downtimeReducer(downtimeEntries, action)` (state.js lines 232-252).
ADD_DOWNTIME appends a new entry unconditionally (no range validation
happens in the reducer); the default branch returns the input. -/
def downtimeReducer (downtimeEntries : List DowntimeEntry) (action : Action) : List DowntimeEntry :=
  match action with
  | .addDowntime machineId reason notes start end_ =>
      downtimeEntries ++
        [{ id := newDowntimeId downtimeEntries
           machineId := machineId
           start := start
           end_ := end_
           reason := reason
           notes := notes }]
  | _ => downtimeEntries

/-- `checklist[section]` property lookup (JavaScript object keys are
unique, so the first match is the value; an absent key is `undefined`,
rendered `none`).  Section values are arrays, which are always truthy, so
`!checklist[section]` holds exactly when the key is absent. -/
def jsGet (checklist : Checklist) (sectionName : String) : Option (List CItem) :=
  (checklist.find? (fun kv => kv.1 == sectionName)).map (fun kv => kv.2)

/-- `{...checklist, [section]: items}` when `section` is already a key of
`checklist`: the entry keeps its position and gets the new value. -/
def setSection (checklist : Checklist) (sectionName : String) (items : List CItem) : Checklist :=
  checklist.map (fun kv => if kv.1 = sectionName then (kv.1, items) else kv)

/-- The per-item mapper of the TOGGLE_CHECKLIST_ITEM branch:
`item.item === itemName ? { ...item, checked: !item.checked } : item`. -/
def toggleItem (itemName : String) (it : CItem) : CItem :=
  if it.item = itemName then { it with checked := !it.checked } else it

/-- `checklistReducer(checklist, action)` (state.js lines 261-285). -/
def checklistReducer (checklist : Checklist) (action : Action) : Checklist :=
  match action with
  | .toggleChecklistItem sectionName itemName =>
      match jsGet checklist sectionName with
      | none => checklist
      | some items => setSection checklist sectionName (items.map (toggleItem itemName))
  | .loadChecklist newChecklist => newChecklist
  | _ => checklist

/-- The derived metrics record returned by `calculateMetrics`. -/
structure Metrics where
  alarmsLast24h : Nat
  machinesDown : Nat
  downtimeMinutesToday : Int
deriving Repr, DecidableEq

/-- `calculateMetrics(events, machines, downtimeEntries, currentTime)`
(state.js lines 324-355).  The source computes
`todayStart = new Date(currentTime); todayStart.setHours(0,0,0,0)`; the
embedding abstracts the host Date library by passing that local-midnight
timestamp explicitly as `todayStartMs`.  `TIME.MS_PER_DAY = 86400000`,
`TIME.MS_PER_MINUTE = 60000`. -/
def calculateMetrics (events : List Event) (machines : List Machine)
    (downtimeEntries : List DowntimeEntry) (currentTime todayStartMs : Int) : Metrics :=
  let last24h := currentTime - 86400000
  let alarmsLast24h :=
    (events.filter (fun e => decide (last24h ≤ e.timestamp ∧ e.severity = "ALARM"))).length
  let machinesDown := (machines.filter (fun m => m.status == "DOWN")).length
  let downtimeMinutesToday :=
    ⌊(downtimeEntries.filter (fun entry => decide (todayStartMs ≤ entry.end_))).foldl
        (fun sum entry => sum + ((entry.end_ : ℚ) - (entry.start : ℚ)) / 60000) 0⌋
  { alarmsLast24h := alarmsLast24h
    machinesDown := machinesDown
    downtimeMinutesToday := downtimeMinutesToday }

/-- `createDowntimeEntry(currentEntries, machineId, reason, notes, start, end)`
(utils.js lines 233-246): id is `max(existing ids) + 1` (so `0 + 1` when
empty, i.e. `1`). -/
def createDowntimeEntry (currentEntries : List DowntimeEntry) (machineId : Int)
    (reason notes : String) (start end_ : Int) : DowntimeEntry :=
  let maxId : Int :=
    match currentEntries.map (fun d => d.id) with
    | [] => 0
    | x :: xs => xs.foldl max x
  { id := maxId + 1
    machineId := machineId
    start := start
    end_ := end_
    reason := reason
    notes := notes }

/-- The downtime form handler `addDowntime(formEvent, machineId)`
(handlers.js lines 54-97) composed with `addDowntimeEntry` (utils.js lines
258-269), modelled over the parsed inputs: `validMachineId` is the result
of `validateMachineId` (`none` = `null`), `startTime`/`endTime` are
`new Date(...).getTime()` with `none` for `NaN`.  On any validation
failure the handler returns before touching the entries list. -/
def addDowntime (downtimeEntries : List DowntimeEntry) (validMachineId : Option Int)
    (reason notes : String) (startTime endTime : Option Int) : List DowntimeEntry :=
  match validMachineId with
  | none => downtimeEntries
  | some machineId =>
      match startTime, endTime with
      | some s, some e =>
          if e ≤ s then downtimeEntries
          else downtimeEntries ++ [createDowntimeEntry downtimeEntries machineId reason notes s e]
      | _, _ => downtimeEntries

/-- The random draws one `simulateTick` loop iteration consumes for one
machine (utils.js lines 302-338): `changeVal` is the `Math.random()`
compared against `SIMULATION.STATUS_CHANGE_PROBABILITY`; `statusIdx` is
`Math.floor(Math.random() * statuses.length)`, always in `0..2`;
`unitsVal` is the `Math.random()` used for `unitsPerMin`, in `[0, 1)`. -/
structure Draw where
  changeVal : ℚ
  statusIdx : Fin 3
  unitsVal : ℚ

/-- `SIMULATION.STATUS_CHANGE_PROBABILITY = 0.1` (templates.js line 603). -/
def statusChangeProbability : ℚ := 1 / 10

/-- `[MACHINE_STATUS.RUNNING, MACHINE_STATUS.IDLE, MACHINE_STATUS.DOWN][i]`,
i.e. `['RUN', 'IDLE', 'DOWN'][i]` (utils.js lines 309-310). -/
def statusAt : Fin 3 → String
  | 0 => "RUN"
  | 1 => "IDLE"
  | 2 => "DOWN"

/-- The events pushed into `generatedEvents` by `simulateTick`:
`{machineId, severity, message}` (utils.js line 327). -/
structure GenEvent where
  machineId : Int
  severity : String
  message : String
deriving Repr, DecidableEq

/-- The body of the `currentMachines.map` callback in `simulateTick`
(utils.js lines 302-338) for one machine and its random draws: stamps the
heartbeat, possibly draws a new status and, when it differs from the old
one, records the status-change event; finally assigns a fresh random
`unitsPerMin` (`Math.floor(rand * (60 - 10)) + 10`). -/
def tickMachine (machine : Machine) (d : Draw) (currentTime : Int) : Machine × Option GenEvent :=
  let updatedMachine : Machine := { machine with lastHeartbeat := currentTime }
  let step : Machine × Option GenEvent :=
    if d.changeVal < statusChangeProbability then
      let newStatus := statusAt d.statusIdx
      if newStatus ≠ machine.status then
        let sevMsg : String × String :=
          if newStatus = "DOWN" then ("ALARM", machine.name ++ " went down")
          else if newStatus = "IDLE" then ("WARN", machine.name ++ " idle")
          else ("INFO", machine.name ++ " running")
        ({ updatedMachine with status := newStatus },
          some { machineId := machine.id, severity := sevMsg.1, message := sevMsg.2 })
      else (updatedMachine, none)
    else (updatedMachine, none)
  ({ step.1 with unitsPerMin := ⌊d.unitsVal * (60 - 10 : ℚ)⌋ + 10 }, step.2)

/-- Recursion over the machines list threading the stream of random draws
(one `Draw` per machine, in iteration order) and collecting the events
pushed into `generatedEvents` in order. -/
def simulateTickAux (draws : Nat → Draw) (currentTime : Int) :
    List Machine → Nat → List Machine × List GenEvent
  | [], _ => ([], [])
  | machine :: rest, i =>
      let next := tickMachine machine (draws i) currentTime
      let tail := simulateTickAux draws currentTime rest (i + 1)
      (next.1 :: tail.1,
        match next.2 with
        | some e => e :: tail.2
        | none => tail.2)

/-- `simulateTick(currentMachines, currentTime)` (utils.js lines 299-342),
with the `Math.random()` draws made explicit as the stream `draws`.
Returns `{machines: newMachines, events: generatedEvents}`. -/
def simulateTick (machines : List Machine) (draws : Nat → Draw) (currentTime : Int) :
    List Machine × List GenEvent :=
  simulateTickAux draws currentTime machines 0

/-- The severity the specification assigns to a status change:
DOWN→ALARM, IDLE→WARN, RUN→INFO.  Stated from the spec's words, to be
compared with what `tickMachine` emits. -/
def severityForStatus (status : String) : String :=
  if status = "DOWN" then "ALARM" else if status = "IDLE" then "WARN" else "INFO"

/-- The view identifiers of `VIEWS` (templates.js lines 688-694). -/
inductive View where
  | overview
  | machine
  | runbooks
  | commissioning
  | help
deriving Repr, DecidableEq

/-- `hash.startsWith(prefix)` of JavaScript: the prefix's character
sequence is an initial segment of the string's character sequence. -/
def jsStartsWith (s pre : String) : Bool :=
  pre.data.isPrefixOf s.data

/-- The `hashchange` routing handler (app.js lines 688-702): prefix match
for the machine view, equality for the named views, overview otherwise. -/
def routeHash (hash : String) : View :=
  if jsStartsWith hash "#/machine/" then View.machine
  else if hash = "#/runbooks" then View.runbooks
  else if hash = "#/commissioning" then View.commissioning
  else if hash = "#/help" then View.help
  else View.overview

/-- A parsed JSON value (`JSON.parse` output).  Objects are association
lists of own enumerable string keys in insertion order. -/
inductive JValue where
  | null
  | bool (b : Bool)
  | str (s : String)
  | num (q : ℚ)
  | arr (items : List JValue)
  | obj (fields : List (String × JValue))

/-- Property lookup on a parsed JSON object.  `JSON.parse` keeps the last
of duplicate keys, so the reversed list is searched first-match; an absent
property is `undefined`, rendered `none`. -/
def jsonGet (fields : List (String × JValue)) (key : String) : Option JValue :=
  (fields.reverse.find? (fun kv => kv.1 == key)).map (fun kv => kv.2)

/-- `REQUIRED_CHECKLIST_SECTIONS` (templates.js lines 708-715). -/
def REQUIRED_CHECKLIST_SECTIONS : List String :=
  ["Safety", "IO", "Network", "Sensors", "Throughput", "Handoff"]

/-- JavaScript template-literal quoting of a section name inside the
validator's error messages. -/
def quoteName (s : String) : String := "\"" ++ s ++ "\""

/-- The error pushed when `typeof checklistItem.item !== 'string'` or its
trim is empty (utils.js line 501). -/
def missingItemError (sectionName : String) (index : Nat) : String :=
  "Section " ++ quoteName sectionName ++ " item " ++ toString (index + 1) ++
    " missing valid \"item\" property"

/-- The error pushed when `typeof checklistItem.checked !== 'boolean'`
(utils.js line 504). -/
def badCheckedError (sectionName : String) (index : Nat) : String :=
  "Section " ++ quoteName sectionName ++ " item " ++ toString (index + 1) ++
    " \"checked\" must be a boolean"

/-- The `item`/`checked` property checks (utils.js lines 500-505), given
the two looked-up property values (`none` = `undefined`). -/
def itemFieldErrors (sectionName : String) (index : Nat)
    (itemProp checkedProp : Option JValue) : List String :=
  (match itemProp with
   | some (.str s) => if s.trim = "" then [missingItemError sectionName index] else []
   | _ => [missingItemError sectionName index]) ++
  (match checkedProp with
   | some (.bool _) => []
   | _ => [badCheckedError sectionName index])

/-- The inner loop body over one section's items (utils.js lines 493-506).
`typeof x === 'object' && x !== null` holds for objects *and arrays*; an
array has no `item`/`checked` properties, so it fails both property
checks; `null`, booleans, strings and numbers take the
`must be an object` error and `continue`. -/
def checklistItemErrors (sectionName : String) (index : Nat) (checklistItem : JValue) : List String :=
  match checklistItem with
  | .obj f => itemFieldErrors sectionName index (jsonGet f "item") (jsonGet f "checked")
  | .arr _ => itemFieldErrors sectionName index none none
  | _ => ["Section " ++ quoteName sectionName ++ " item " ++ toString (index + 1) ++
            " must be an object"]

/-- `for (let index = 0; index < items.length; index++) ...`
(utils.js lines 493-506), accumulating the errors in order. -/
def itemsErrors (sectionName : String) : Nat → List JValue → List String
  | _, [] => []
  | index, it :: rest =>
      checklistItemErrors sectionName index it ++ itemsErrors sectionName (index + 1) rest

/-- One iteration of the `Object.entries(data)` loop (utils.js lines
487-507): a non-array section value takes a single error and `continue`. -/
def sectionErrors (sectionName : String) (v : JValue) : List String :=
  match v with
  | .arr items => itemsErrors sectionName 0 items
  | _ => ["Section " ++ quoteName sectionName ++ " must be an array"]

/-- The `{valid, errors}` result object. -/
structure ValidationResult where
  valid : Bool
  errors : List String
deriving Repr, DecidableEq

/-- `validateChecklistJSON(data)` (utils.js lines 470-510): rejects
non-objects (`typeof data !== 'object' || data === null ||
Array.isArray(data)`) outright; otherwise collects one error per missing
required section, then walks every entry of the object validating its
items, and is valid exactly when no error was collected. -/
def validateChecklistJSON (data : JValue) : ValidationResult :=
  match data with
  | .obj fields =>
      let missingErrors := REQUIRED_CHECKLIST_SECTIONS.flatMap (fun s =>
        if fields.any (fun kv => kv.1 == s) then []
        else ["Missing required section: " ++ quoteName s])
      let entryErrors := fields.flatMap (fun kv => sectionErrors kv.1 kv.2)
      let errors := missingErrors ++ entryErrors
      { valid := errors.isEmpty, errors := errors }
  | _ => { valid := false, errors := ["Invalid format: expected an object with section keys"] }

/-- Well-formedness of one checklist item as the specification words it:
an object with a non-empty (after trim) string `item` and a boolean
`checked`. -/
def wellFormedItem (it : JValue) : Bool :=
  match it with
  | .obj f =>
      (match jsonGet f "item" with
       | some (.str s) => !(s.trim == "")
       | _ => false) &&
      (match jsonGet f "checked" with
       | some (.bool _) => true
       | _ => false)
  | _ => false

/-- Well-formedness of a whole checklist document as the specification
words it: a plain object containing every required section, every section
value an array of well-formed items. -/
def wellFormedChecklistDoc (data : JValue) : Bool :=
  match data with
  | .obj fields =>
      (REQUIRED_CHECKLIST_SECTIONS.all (fun s => fields.any (fun kv => kv.1 == s))) &&
      (fields.all (fun kv =>
        match kv.2 with
        | .arr items => items.all wellFormedItem
        | _ => false))
  | _ => false

/-- The action types named by a `case` label of `eventsReducer`'s switch
(everything else takes its default branch). -/
def eventsHandles : Action → Bool
  | .addEvent _ _ _ _ => true
  | .acknowledgeEvent _ => true
  | _ => false

/-- The action types named by a `case` label of `machinesReducer`'s switch. -/
def machinesHandles : Action → Bool
  | .updateMachine _ _ => true
  | .setMachineStatus _ _ => true
  | .tickSimulation _ => true
  | _ => false

/-- The action types named by a `case` label of `downtimeReducer`'s switch. -/
def downtimeHandles : Action → Bool
  | .addDowntime _ _ _ _ _ => true
  | _ => false

/-- The action types named by a `case` label of `checklistReducer`'s switch. -/
def checklistHandles : Action → Bool
  | .toggleChecklistItem _ _ => true
  | .loadChecklist _ => true
  | _ => false

/-!  Helper lemmas.  -/

theorem le_foldl_max_init (xs : List Int) (x : Int) : x ≤ xs.foldl max x := by
  induction xs generalizing x with
  | nil => exact le_refl x
  | cons y ys ih => exact le_trans (le_max_left x y) (ih (max x y))

theorem le_foldl_max_of_mem (xs : List Int) (x a : Int) (h : a ∈ xs) : a ≤ xs.foldl max x := by
  induction xs generalizing x with
  | nil => cases h
  | cons y ys ih =>
      rcases List.mem_cons.mp h with rfl | h
      · exact le_trans (le_max_right x a) (le_foldl_max_init ys (max x a))
      · exact ih (max x y) h

theorem foldl_max_mem (xs : List Int) (x : Int) : xs.foldl max x = x ∨ xs.foldl max x ∈ xs := by
  induction xs generalizing x with
  | nil => exact Or.inl rfl
  | cons y ys ih =>
      rcases ih (max x y) with h | h
      · rcases max_cases x y with ⟨he, _⟩ | ⟨he, _⟩
        · exact Or.inl (by rw [List.foldl_cons, h, he])
        · exact Or.inr (by rw [List.foldl_cons, h, he]; exact List.mem_cons_self y ys)
      · exact Or.inr (List.mem_cons_of_mem y h)

theorem foldl_add_map {α : Type} (f : α → ℚ) :
    ∀ (l : List α) (a : ℚ), l.foldl (fun sum x => sum + f x) a = a + (l.map f).sum := by
  intro l
  induction l with
  | nil => intro a; simp
  | cons x xs ih =>
      intro a
      rw [List.foldl_cons, ih, List.map_cons, List.sum_cons]
      ring

/-- Claim C1: for every events list and every ADD_EVENT action with a
positive configured maximum length `maxEvents`, `eventsReducer` returns a
list of length `min (oldLength + 1) maxEvents` whose first element is the
new event, and the new event's id is the maximum of the existing ids plus
one — it exceeds every existing id and, on a non-empty list, equals some
existing id plus one — or `1` when the input list is empty. -/
theorem eventsReducer_addEvent_spec (events : List Event) (machineId : Int)
    (severity message : String) (timestamp : Int) (maxEvents : Nat) (h : 0 < maxEvents) :
    (eventsReducer events (.addEvent machineId severity message timestamp) maxEvents).length
        = min (events.length + 1) maxEvents
    ∧ (eventsReducer events (.addEvent machineId severity message timestamp) maxEvents).head?
        = some { id := newEventId events, machineId := machineId, timestamp := timestamp,
                 severity := severity, message := message, acknowledged := false }
    ∧ (events = [] → newEventId events = 1)
    ∧ (∀ e ∈ events, e.id + 1 ≤ newEventId events)
    ∧ (events ≠ [] → ∃ e ∈ events, newEventId events = e.id + 1) := by
  refine ⟨?_, ?_, ?_, ?_, ?_⟩
  · simp [eventsReducer, List.length_take, Nat.min_comm]
  · obtain ⟨k, rfl⟩ := Nat.exists_eq_succ_of_ne_zero (Nat.pos_iff_ne_zero.mp h)
    simp [eventsReducer, List.take_succ_cons]
  · intro he; subst he; rfl
  · intro e he
    unfold newEventId
    cases events with
    | nil => cases he
    | cons e0 rest =>
        simp only [List.map_cons]
        have : e.id ∈ (e0 :: rest).map (fun e => e.id) := List.mem_map_of_mem _ he
        rcases List.mem_cons.mp this with h1 | h1
        · exact add_le_add_right (h1 ▸ le_foldl_max_init _ _) 1
        · exact add_le_add_right (le_foldl_max_of_mem _ _ _ h1) 1
  · intro hne
    cases events with
    | nil => exact absurd rfl hne
    | cons e0 rest =>
        unfold newEventId
        simp only [List.map_cons]
        rcases foldl_max_mem (rest.map (fun e => e.id)) e0.id with hm | hm
        · exact ⟨e0, List.mem_cons_self _ _, by rw [hm]⟩
        · rcases List.mem_map.mp hm with ⟨e, he, hid⟩
          exact ⟨e, List.mem_cons_of_mem _ he, by rw [hid]⟩

/-- Concrete instance of `eventsReducer_addEvent_spec`: adding to a
one-event list with `maxEvents = 100`. -/
theorem eventsReducer_addEvent_spec_witness :
    (eventsReducer
        [{ id := 7, machineId := 2, timestamp := 0, severity := "INFO", message := "x",
           acknowledged := false }]
        (.addEvent 1 "ALARM" "m1 down" 50) 100).length = min 2 100
    ∧ newEventId
        [{ id := 7, machineId := 2, timestamp := 0, severity := "INFO", message := "x",
           acknowledged := false }] = 7 + 1 := by
  have hspec := eventsReducer_addEvent_spec
    [{ id := 7, machineId := 2, timestamp := 0, severity := "INFO", message := "x",
       acknowledged := false }]
    1 "ALARM" "m1 down" 50 100 (by decide)
  refine ⟨hspec.1, ?_⟩
  rcases hspec.2.2.2.2 (by decide) with ⟨e, he, hid⟩
  rcases List.mem_singleton.mp he with rfl
  exact hid

/-- Claim C10: `eventsReducer` preserves pairwise distinctness of event
ids for every action, and after an ADD_EVENT action the id of the newly
prepended event is strictly greater than the id of every other retained
event. -/
theorem eventsReducer_preserves_id_nodup (events : List Event) (action : Action) (maxEvents : Nat)
    (h : (events.map (fun e => e.id)).Nodup) :
    ((eventsReducer events action maxEvents).map (fun e => e.id)).Nodup
    ∧ (∀ machineId severity message timestamp,
        action = Action.addEvent machineId severity message timestamp →
        ∀ e ∈ eventsReducer events action maxEvents,
          e.id ≠ newEventId events → e.id < newEventId events) := by
  have hlt : ∀ e ∈ events, e.id < newEventId events := by
    intro e he
    cases events with
    | nil => cases he
    | cons e0 rest =>
        unfold newEventId
        simp only [List.map_cons]
        have : e.id ∈ (e0 :: rest).map (fun e => e.id) := List.mem_map_of_mem _ he
        rcases List.mem_cons.mp this with h1 | h1
        · exact lt_of_le_of_lt (h1 ▸ le_foldl_max_init _ _) (lt_add_one _)
        · exact lt_of_le_of_lt (le_foldl_max_of_mem _ _ _ h1) (lt_add_one _)
  cases action with
  | addEvent machineId severity message timestamp =>
      constructor
      · show (((_ :: events).take maxEvents).map (fun e => e.id)).Nodup
        rw [List.map_take]
        refine List.Nodup.sublist (List.take_sublist _ _) ?_
        rw [List.map_cons]
        refine List.nodup_cons.mpr ⟨?_, h⟩
        intro hmem
        rcases List.mem_map.mp hmem with ⟨e, he, hid⟩
        exact absurd hid (ne_of_lt (hlt e he))
      · intro machineId' severity' message' timestamp' heq e he hne
        have he' : e ∈ ({ id := newEventId events, machineId := machineId,
                          timestamp := timestamp, severity := severity, message := message,
                          acknowledged := false } : Event) :: events :=
          List.mem_of_mem_take he
        rcases List.mem_cons.mp he' with rfl | hmem
        · exact absurd rfl hne
        · exact hlt e hmem
  | acknowledgeEvent eventId =>
      constructor
      · show ((events.map (fun event =>
            if event.id = eventId then { event with acknowledged := true } else event)).map
              (fun e => e.id)).Nodup
        rw [List.map_map]
        have : ((fun e : Event => e.id) ∘ fun event =>
            if event.id = eventId then { event with acknowledged := true } else event)
            = fun e : Event => e.id := by
          funext e
          by_cases hc : e.id = eventId <;> simp [hc]
        rw [this]
        exact h
      · intro machineId severity message timestamp heq
        cases heq
  | updateMachine machineId updates =>
      exact ⟨h, fun _ _ _ _ heq => by cases heq⟩
  | setMachineStatus machineId status =>
      exact ⟨h, fun _ _ _ _ heq => by cases heq⟩
  | addDowntime machineId reason notes start end_ =>
      exact ⟨h, fun _ _ _ _ heq => by cases heq⟩
  | startSimulation => exact ⟨h, fun _ _ _ _ heq => by cases heq⟩
  | stopSimulation => exact ⟨h, fun _ _ _ _ heq => by cases heq⟩
  | tickSimulation timestamp => exact ⟨h, fun _ _ _ _ heq => by cases heq⟩
  | toggleChecklistItem sectionName itemName => exact ⟨h, fun _ _ _ _ heq => by cases heq⟩
  | loadChecklist checklist => exact ⟨h, fun _ _ _ _ heq => by cases heq⟩
  | updateMetrics => exact ⟨h, fun _ _ _ _ heq => by cases heq⟩

/-- Concrete instance of `eventsReducer_preserves_id_nodup`: ids stay
distinct after adding to a two-event list. -/
theorem eventsReducer_preserves_id_nodup_witness :
    ((eventsReducer
        [{ id := 3, machineId := 1, timestamp := 0, severity := "INFO", message := "a",
           acknowledged := false },
         { id := 1, machineId := 2, timestamp := 0, severity := "WARN", message := "b",
           acknowledged := true }]
        (Action.addEvent 2 "ALARM" "c" 9) 100).map (fun e => e.id)).Nodup :=
  (eventsReducer_preserves_id_nodup
    [{ id := 3, machineId := 1, timestamp := 0, severity := "INFO", message := "a",
       acknowledged := false },
     { id := 1, machineId := 2, timestamp := 0, severity := "WARN", message := "b",
       acknowledged := true }]
    (Action.addEvent 2 "ALARM" "c" 9) 100 (by decide)).1

/-- Claim C6: acknowledging an event id that does not occur in the list is
a no-op (the result equals the input element for element); when the id
does occur, the result has the same length, every event with a different
id is unchanged, and each matching event differs only in `acknowledged`
being `true`. -/
theorem eventsReducer_acknowledge_spec (events : List Event) (eventId : Int) (maxEvents : Nat) :
    ((∀ e ∈ events, e.id ≠ eventId) →
        eventsReducer events (.acknowledgeEvent eventId) maxEvents = events)
    ∧ (eventsReducer events (.acknowledgeEvent eventId) maxEvents).length = events.length
    ∧ (∀ i (h1 : i < events.length)
        (h2 : i < (eventsReducer events (.acknowledgeEvent eventId) maxEvents).length),
        ((events.get ⟨i, h1⟩).id ≠ eventId →
            (eventsReducer events (.acknowledgeEvent eventId) maxEvents).get ⟨i, h2⟩
              = events.get ⟨i, h1⟩)
        ∧ ((events.get ⟨i, h1⟩).id = eventId →
            (eventsReducer events (.acknowledgeEvent eventId) maxEvents).get ⟨i, h2⟩
              = { events.get ⟨i, h1⟩ with acknowledged := true })) := by
  refine ⟨?_, ?_, ?_⟩
  · intro hall
    show events.map _ = events
    rw [List.map_eq_map_iff.mpr, List.map_id]
    intro e he
    simp [hall e he]
  · exact List.length_map events _
  · intro i h1 h2
    have hget : (eventsReducer events (.acknowledgeEvent eventId) maxEvents).get ⟨i, h2⟩
        = (fun event => if event.id = eventId then { event with acknowledged := true } else event)
            (events.get ⟨i, h1⟩) := by
      show (events.map _).get ⟨i, h2⟩ = _
      simp [List.get_eq_getElem, List.getElem_map]
    constructor
    · intro hne
      rw [hget]
      simp only [if_neg hne]
    · intro heq
      rw [hget]
      simp only [if_pos heq]

/-- Concrete instance of `eventsReducer_acknowledge_spec`: acknowledging
the absent id `99` leaves a one-event list unchanged. -/
theorem eventsReducer_acknowledge_spec_witness :
    eventsReducer
        [{ id := 1, machineId := 4, timestamp := 0, severity := "ALARM", message := "down",
           acknowledged := false }]
        (.acknowledgeEvent 99) 100
      = [{ id := 1, machineId := 4, timestamp := 0, severity := "ALARM", message := "down",
           acknowledged := false }] :=
  (eventsReducer_acknowledge_spec
    [{ id := 1, machineId := 4, timestamp := 0, severity := "ALARM", message := "down",
       acknowledged := false }]
    99 100).1 (by decide)

/-- Claim C5: each reducer is a pure function of its slice and action (the
embedding renders every reducer as a total function, so no call can mutate
its input), and for every action whose type is not named by one of its
`case` labels the reducer returns the identical input slice. -/
theorem reducers_default_branch_identity (events : List Event) (machines : List Machine)
    (downtimeEntries : List DowntimeEntry) (checklist : Checklist) (action : Action)
    (maxEvents : Nat) :
    (eventsHandles action = false → eventsReducer events action maxEvents = events)
    ∧ (machinesHandles action = false → machinesReducer machines action = machines)
    ∧ (downtimeHandles action = false → downtimeReducer downtimeEntries action = downtimeEntries)
    ∧ (checklistHandles action = false → checklistReducer checklist action = checklist) := by
  cases action <;>
    refine ⟨fun h => ?_, fun h => ?_, fun h => ?_, fun h => ?_⟩ <;>
    first
    | rfl
    | cases h

/-- Concrete instance of `reducers_default_branch_identity`: the
UPDATE_METRICS action (handled by no slice reducer) leaves every slice
identical. -/
theorem reducers_default_branch_identity_witness :
    eventsReducer [] Action.updateMetrics 100 = []
    ∧ machinesReducer [] Action.updateMetrics = []
    ∧ downtimeReducer [] Action.updateMetrics = []
    ∧ checklistReducer [] Action.updateMetrics = [] := by
  have h := reducers_default_branch_identity [] [] [] [] Action.updateMetrics 100
  exact ⟨h.1 rfl, h.2.1 rfl, h.2.2.1 rfl, h.2.2.2 rfl⟩

/-- Counterexample to claim C4 as stated: the ADD_DOWNTIME reducer branch
performs no range validation — dispatching an action whose `end` equals
its `start` appends an entry, so the list no longer satisfies
`end > start` for every entry. -/
theorem downtimeReducer_appends_invalid_range :
    (downtimeReducer [] (Action.addDowntime 1 "Failure" "note" 100 100)).length = 1
    ∧ ¬ (∀ e ∈ downtimeReducer [] (Action.addDowntime 1 "Failure" "note" 100 100),
          e.start < e.end_) := by
  constructor
  · rfl
  · intro hall
    exact absurd (hall _ (List.mem_singleton_self _)) (by decide)

/-- Claim C4 (amended): only the downtime *form handler* validates the
range — it rejects an unparsable or invalid machine id, unparsable dates,
and `end <= start`, returning the entries list unchanged, and every entry
present after a handler call either was already present or satisfies
`end > start`; the ADD_DOWNTIME reducer branch itself appends
unconditionally. -/
theorem addDowntime_validates_range (downtimeEntries : List DowntimeEntry)
    (validMachineId : Option Int) (reason notes : String) (startTime endTime : Option Int) :
    (validMachineId = none →
        addDowntime downtimeEntries validMachineId reason notes startTime endTime
          = downtimeEntries)
    ∧ (startTime = none ∨ endTime = none →
        addDowntime downtimeEntries validMachineId reason notes startTime endTime
          = downtimeEntries)
    ∧ (∀ s e, startTime = some s → endTime = some e → e ≤ s →
        addDowntime downtimeEntries validMachineId reason notes startTime endTime
          = downtimeEntries)
    ∧ (∀ entry ∈ addDowntime downtimeEntries validMachineId reason notes startTime endTime,
        entry ∈ downtimeEntries ∨ entry.start < entry.end_) := by
  refine ⟨?_, ?_, ?_, ?_⟩
  · intro h; rw [h]; rfl
  · intro h
    cases validMachineId with
    | none => rfl
    | some machineId =>
        rcases h with h | h <;> rw [h]
        · rfl
        · cases startTime <;> rfl
  · intro s e hs he hle
    cases validMachineId with
    | none => rfl
    | some machineId =>
        rw [hs, he]
        show (if e ≤ s then _ else _) = _
        rw [if_pos hle]
  · intro entry hmem
    cases validMachineId with
    | none => exact Or.inl hmem
    | some machineId =>
        cases startTime with
        | none => exact Or.inl hmem
        | some s =>
            cases endTime with
            | none => exact Or.inl hmem
            | some e =>
                by_cases hle : e ≤ s
                · rw [show addDowntime downtimeEntries (some machineId) reason notes
                        (some s) (some e) = downtimeEntries from if_pos hle] at hmem
                  exact Or.inl hmem
                · rw [show addDowntime downtimeEntries (some machineId) reason notes
                        (some s) (some e) = downtimeEntries ++
                          [createDowntimeEntry downtimeEntries machineId reason notes s e]
                        from if_neg hle] at hmem
                  rcases List.mem_append.mp hmem with h | h
                  · exact Or.inl h
                  · rcases List.mem_singleton.mp h with rfl
                    exact Or.inr (lt_of_not_le hle)

/-- Concrete instance of `addDowntime_validates_range`: a form submission
with `end = start` is rejected and appends nothing. -/
theorem addDowntime_validates_range_witness :
    addDowntime [] (some 3) "Maintenance" "" (some 1000) (some 1000) = [] :=
  (addDowntime_validates_range [] (some 3) "Maintenance" "" (some 1000) (some 1000)).2.2.1
    1000 1000 rfl rfl (le_refl 1000)

/-- Claim C3: `calculateMetrics` returns `downtimeMinutesToday` equal to
the floor of the sum of `(end - start)` in minutes over exactly the
downtime entries whose `end` is at or after local midnight of `now`
(`todayStartMs`); an entry whose `start` precedes midnight is counted with
its entire duration — the second conjunct exhibits an entry starting ten
minutes before midnight and ending five minutes after it contributing the
full fifteen minutes, not the clipped five. -/
theorem calculateMetrics_downtimeMinutesToday_spec (events : List Event)
    (machines : List Machine) (downtimeEntries : List DowntimeEntry)
    (currentTime todayStartMs : Int) :
    (calculateMetrics events machines downtimeEntries currentTime todayStartMs).downtimeMinutesToday
        = ⌊((downtimeEntries.filter (fun entry => decide (todayStartMs ≤ entry.end_))).map
              (fun entry => ((entry.end_ : ℚ) - (entry.start : ℚ)) / 60000)).sum⌋
    ∧ (calculateMetrics [] [] [{ id := 1, machineId := 3, start := todayStartMs - 600000,
                                 end_ := todayStartMs + 300000, reason := "Failure",
                                 notes := "" }]
          currentTime todayStartMs).downtimeMinutesToday = 15 := by
  constructor
  · show (⌊(downtimeEntries.filter _).foldl _ 0⌋ : Int) = _
    rw [foldl_add_map (fun entry : DowntimeEntry => ((entry.end_ : ℚ) - (entry.start : ℚ)) / 60000)]
    rw [zero_add]
  · show (⌊(List.filter _ _).foldl _ 0⌋ : Int) = 15
    have hfil : decide (todayStartMs ≤ todayStartMs + 300000) = true := by
      simp
    rw [List.filter_cons, hfil]
    show (⌊(0 : ℚ) + (((todayStartMs + 300000 : Int) : ℚ) - ((todayStartMs - 600000 : Int) : ℚ))
            / 60000⌋ : Int) = 15
    push_cast
    rw [zero_add]
    have : ((todayStartMs : ℚ) + 300000 - ((todayStartMs : ℚ) - 600000)) / 60000 = 15 := by
      ring_nf
    rw [this]
    norm_num

/-- Claim C8: the hash-routing function is total over fragment strings: it
yields the machine view exactly on fragments starting with `#/machine/`,
each named view exactly on its fragment, and the overview view on every
other fragment — including `#/` and the empty string. -/
theorem routeHash_total (hash : String) :
    (routeHash hash = View.machine ↔ jsStartsWith hash "#/machine/" = true)
    ∧ (routeHash hash = View.runbooks ↔ hash = "#/runbooks")
    ∧ (routeHash hash = View.commissioning ↔ hash = "#/commissioning")
    ∧ (routeHash hash = View.help ↔ hash = "#/help")
    ∧ (jsStartsWith hash "#/machine/" = false → hash ≠ "#/runbooks" →
        hash ≠ "#/commissioning" → hash ≠ "#/help" → routeHash hash = View.overview)
    ∧ routeHash "#/" = View.overview
    ∧ routeHash "" = View.overview := by
  have hm : jsStartsWith "#/runbooks" "#/machine/" = false := by decide
  have hc : jsStartsWith "#/commissioning" "#/machine/" = false := by decide
  have hh : jsStartsWith "#/help" "#/machine/" = false := by decide
  refine ⟨?_, ?_, ?_, ?_, ?_, by decide, by decide⟩
  · unfold routeHash
    by_cases h1 : jsStartsWith hash "#/machine/" <;>
      simp [h1] <;>
      split_ifs <;> simp_all
  · unfold routeHash
    by_cases h2 : hash = "#/runbooks"
    · subst h2; simp [hm]
    · by_cases h1 : jsStartsWith hash "#/machine/" <;> simp [h1, h2] <;>
        split_ifs <;> simp_all
  · unfold routeHash
    by_cases h2 : hash = "#/commissioning"
    · subst h2; simp [hc]
    · by_cases h1 : jsStartsWith hash "#/machine/" <;> simp [h1, h2] <;>
        split_ifs <;> simp_all
  · unfold routeHash
    by_cases h2 : hash = "#/help"
    · subst h2; simp [hh]
    · by_cases h1 : jsStartsWith hash "#/machine/" <;> simp [h1, h2] <;>
        split_ifs <;> simp_all
  · intro h1 h2 h3 h4
    unfold routeHash
    simp [h1, h2, h3, h4]

/-- Concrete instance of `routeHash_total`: an unknown fragment falls back
to the overview view. -/
theorem routeHash_total_witness : routeHash "#/unknown" = View.overview :=
  (routeHash_total "#/unknown").2.2.2.2.1 (by decide) (by decide) (by decide) (by decide)

theorem toggleItem_involutive (itemName : String) (it : CItem) :
    toggleItem itemName (toggleItem itemName it) = it := by
  cases it with
  | mk nm checked =>
      unfold toggleItem
      by_cases h : nm = itemName <;> simp [h]

theorem jsGet_setSection (checklist : Checklist) (s : String) (items : List CItem) :
    jsGet (setSection checklist s items) s = (jsGet checklist s).map (fun _ => items) := by
  induction checklist with
  | nil => rfl
  | cons kv rest ih =>
      by_cases h : kv.1 = s
      · simp [jsGet, setSection, List.find?_cons, h]
      · simp only [jsGet, setSection, List.map_cons, if_neg h]
        rw [List.find?_cons, List.find?_cons]
        have hb : (kv.1 == s) = false := beq_eq_false_iff_ne.mpr h
        rw [hb]
        simpa [jsGet, setSection] using ih

theorem setSection_setSection (checklist : Checklist) (s : String)
    (items1 items2 : List CItem) :
    setSection (setSection checklist s items1) s items2 = setSection checklist s items2 := by
  unfold setSection
  rw [List.map_map]
  refine List.map_congr_left ?_
  intro kv _
  by_cases h : kv.1 = s <;> simp [h]

theorem setSection_of_not_mem (checklist : Checklist) (s : String) (items : List CItem)
    (h : ∀ kv ∈ checklist, kv.1 ≠ s) : setSection checklist s items = checklist := by
  unfold setSection
  have heq : checklist.map (fun kv => if kv.1 = s then (kv.1, items) else kv)
      = checklist.map id := by
    refine List.map_congr_left ?_
    intro kv hkv
    simp [h kv hkv]
  rw [heq, List.map_id]

theorem setSection_self (checklist : Checklist) (s : String) (items : List CItem)
    (hnd : (checklist.map Prod.fst).Nodup) (h : jsGet checklist s = some items) :
    setSection checklist s items = checklist := by
  induction checklist with
  | nil => rfl
  | cons kv rest ih =>
      rw [List.map_cons, List.nodup_cons] at hnd
      by_cases hk : kv.1 = s
      · have hfind : jsGet (kv :: rest) s = some kv.2 := by
          simp [jsGet, List.find?_cons, hk]
        have hv : items = kv.2 := by
          rw [h] at hfind
          exact Option.some.inj hfind
        have hrest : ∀ kv' ∈ rest, kv'.1 ≠ s := by
          intro kv' hkv' heq
          apply hnd.1
          rw [hk, ← heq]
          exact List.mem_map_of_mem Prod.fst hkv'
        show (if kv.1 = s then (kv.1, items) else kv) :: setSection rest s items = kv :: rest
        rw [if_pos hk, hv, Prod.mk.eta, setSection_of_not_mem rest s kv.2 hrest]
      · have hb : (kv.1 == s) = false := beq_eq_false_iff_ne.mpr hk
        have h' : jsGet rest s = some items := by
          simpa [jsGet, List.find?_cons, hb] using h
        show (if kv.1 = s then (kv.1, items) else kv) :: setSection rest s items = kv :: rest
        rw [if_neg hk, ih hnd.2 h']

theorem checklistReducer_toggle_none (checklist : Checklist) (s n : String)
    (hj : jsGet checklist s = none) :
    checklistReducer checklist (.toggleChecklistItem s n) = checklist := by
  show (match jsGet checklist s with
        | none => checklist
        | some items => setSection checklist s (items.map (toggleItem n))) = checklist
  rw [hj]

theorem checklistReducer_toggle_some (checklist : Checklist) (s n : String)
    (items : List CItem) (hj : jsGet checklist s = some items) :
    checklistReducer checklist (.toggleChecklistItem s n)
      = setSection checklist s (items.map (toggleItem n)) := by
  show (match jsGet checklist s with
        | none => checklist
        | some items => setSection checklist s (items.map (toggleItem n)))
      = setSection checklist s (items.map (toggleItem n))
  rw [hj]

/-- Claim C7: on a checklist whose section keys are distinct (JavaScript
object keys always are), toggling a checklist item twice restores the
original checklist (the `checked` flag is an involution), and a single
toggle keeps the length, leaves every entry whose section key differs from
the named one unchanged, and maps the named section's items with the
toggle mapper, which fixes every item whose name does not match. -/
theorem checklistReducer_toggle_spec (checklist : Checklist) (sectionName itemName : String)
    (hnd : (checklist.map Prod.fst).Nodup) :
    checklistReducer (checklistReducer checklist (.toggleChecklistItem sectionName itemName))
        (.toggleChecklistItem sectionName itemName) = checklist
    ∧ (checklistReducer checklist (.toggleChecklistItem sectionName itemName)).length
        = checklist.length
    ∧ (∀ i (h1 : i < checklist.length),
        (checklist.get ⟨i, h1⟩).1 ≠ sectionName →
          (checklistReducer checklist (.toggleChecklistItem sectionName itemName))[i]?
            = some (checklist.get ⟨i, h1⟩))
    ∧ (∀ items, jsGet checklist sectionName = some items →
        jsGet (checklistReducer checklist (.toggleChecklistItem sectionName itemName)) sectionName
          = some (items.map (toggleItem itemName))
        ∧ ∀ it ∈ items, it.item ≠ itemName → toggleItem itemName it = it) := by
  rcases hj : jsGet checklist sectionName with _ | items
  · have hred := checklistReducer_toggle_none checklist sectionName itemName hj
    refine ⟨by rw [hred, hred], by rw [hred], ?_, ?_⟩
    · intro i h1 hne
      rw [hred, List.getElem?_eq_getElem h1]
      simp [List.get_eq_getElem]
    · intro items hsome
      cases hsome
  · have hred := checklistReducer_toggle_some checklist sectionName itemName items hj
    have hj2 : jsGet (setSection checklist sectionName (items.map (toggleItem itemName)))
        sectionName = some (items.map (toggleItem itemName)) := by
      rw [jsGet_setSection, hj]
      rfl
    refine ⟨?_, ?_, ?_, ?_⟩
    · rw [hred,
        checklistReducer_toggle_some _ sectionName itemName (items.map (toggleItem itemName)) hj2,
        setSection_setSection]
      have hmm : (items.map (toggleItem itemName)).map (toggleItem itemName) = items := by
        rw [List.map_map]
        have : items.map (toggleItem itemName ∘ toggleItem itemName) = items.map id := by
          refine List.map_congr_left ?_
          intro it _
          exact toggleItem_involutive itemName it
        rw [this, List.map_id]
      rw [hmm]
      exact setSection_self checklist sectionName items hnd hj
    · rw [hred]
      unfold setSection
      exact List.length_map checklist _
    · intro i h1 hne
      rw [hred]
      show (checklist.map (fun kv => if kv.1 = sectionName
              then (kv.1, items.map (toggleItem itemName)) else kv))[i]?
          = some (checklist.get ⟨i, h1⟩)
      rw [List.getElem?_map, List.getElem?_eq_getElem h1]
      simp only [List.get_eq_getElem] at hne ⊢
      simp only [Option.map_some']
      rw [if_neg hne]
    · intro items' hsome
      have hit : items' = items := (Option.some.inj hsome).symm
      subst hit
      refine ⟨by rw [hred]; exact hj2, ?_⟩
      intro it hit hne
      unfold toggleItem
      rw [if_neg hne]

/-- Concrete instance of `checklistReducer_toggle_spec`: toggling
`"Guards in place"` in section `Safety` twice restores the original
checklist. -/
theorem checklistReducer_toggle_spec_witness :
    checklistReducer
        (checklistReducer [("Safety", [{ item := "Guards in place", checked := false }])]
          (.toggleChecklistItem "Safety" "Guards in place"))
        (.toggleChecklistItem "Safety" "Guards in place")
      = [("Safety", [{ item := "Guards in place", checked := false }])] :=
  (checklistReducer_toggle_spec [("Safety", [{ item := "Guards in place", checked := false }])]
    "Safety" "Guards in place" (by decide)).1

theorem tickMachine_char (machine : Machine) (d : Draw) (currentTime : Int) :
    (tickMachine machine d currentTime).1.status
        = (if d.changeVal < statusChangeProbability ∧ statusAt d.statusIdx ≠ machine.status
            then statusAt d.statusIdx else machine.status)
    ∧ (tickMachine machine d currentTime).2
        = (if d.changeVal < statusChangeProbability ∧ statusAt d.statusIdx ≠ machine.status
            then some { machineId := machine.id,
                        severity := severityForStatus (statusAt d.statusIdx),
                        message := if statusAt d.statusIdx = "DOWN"
                            then machine.name ++ " went down"
                            else if statusAt d.statusIdx = "IDLE" then machine.name ++ " idle"
                            else machine.name ++ " running" }
            else none) := by
  by_cases h1 : d.changeVal < statusChangeProbability
  · by_cases h2 : statusAt d.statusIdx ≠ machine.status
    · rw [if_pos ⟨h1, h2⟩, if_pos ⟨h1, h2⟩]
      refine ⟨?_, ?_⟩
      · unfold tickMachine
        simp only []
        rw [if_pos h1, if_pos h2]
      · unfold tickMachine
        simp only []
        rw [if_pos h1, if_pos h2]
        by_cases hd : statusAt d.statusIdx = "DOWN"
        · simp [severityForStatus, hd]
        · by_cases hi : statusAt d.statusIdx = "IDLE"
          · simp [severityForStatus, hd, hi]
          · simp [severityForStatus, hd, hi]
    · rw [if_neg (fun hc => h2 hc.2), if_neg (fun hc => h2 hc.2)]
      rw [not_not] at h2
      refine ⟨?_, ?_⟩ <;>
        · unfold tickMachine
          simp only []
          rw [if_pos h1, if_neg (fun hne => hne h2)]
  · rw [if_neg (fun hc => h1 hc.1), if_neg (fun hc => h1 hc.1)]
    refine ⟨?_, ?_⟩ <;>
      · unfold tickMachine
        simp only []
        rw [if_neg h1]

theorem tickMachine_some (machine : Machine) (d : Draw) (currentTime : Int) (ev : GenEvent)
    (h : (tickMachine machine d currentTime).2 = some ev) :
    (tickMachine machine d currentTime).1.status ≠ machine.status
    ∧ ev.severity = severityForStatus (tickMachine machine d currentTime).1.status
    ∧ ev.machineId = machine.id := by
  rcases tickMachine_char machine d currentTime with ⟨hst, hev⟩
  by_cases hc : d.changeVal < statusChangeProbability ∧ statusAt d.statusIdx ≠ machine.status
  · rw [hev, if_pos hc] at h
    have hv := Option.some.inj h
    rw [hst, if_pos hc]
    subst hv
    exact ⟨hc.2, rfl, rfl⟩
  · rw [hev, if_neg hc] at h
    cases h

theorem tickMachine_none (machine : Machine) (d : Draw) (currentTime : Int)
    (h : (tickMachine machine d currentTime).2 = none) :
    (tickMachine machine d currentTime).1.status = machine.status := by
  rcases tickMachine_char machine d currentTime with ⟨hst, hev⟩
  by_cases hc : d.changeVal < statusChangeProbability ∧ statusAt d.statusIdx ≠ machine.status
  · rw [hev, if_pos hc] at h
    cases h
  · rw [hst, if_neg hc]

theorem simulateTickAux_length (draws : Nat → Draw) (currentTime : Int) :
    ∀ (machines : List Machine) (i : Nat),
      (simulateTickAux draws currentTime machines i).1.length = machines.length := by
  intro machines
  induction machines with
  | nil => intro i; rfl
  | cons machine rest ih =>
      intro i
      show ((tickMachine machine (draws i) currentTime).1
          :: (simulateTickAux draws currentTime rest (i + 1)).1).length = rest.length + 1
      rw [List.length_cons, ih (i + 1)]

theorem simulateTickAux_get (draws : Nat → Draw) (currentTime : Int) :
    ∀ (machines : List Machine) (i j : Nat) (h : j < machines.length),
      (simulateTickAux draws currentTime machines i).1[j]?
        = some (tickMachine (machines.get ⟨j, h⟩) (draws (i + j)) currentTime).1 := by
  intro machines
  induction machines with
  | nil => intro i j h; cases h
  | cons machine rest ih =>
      intro i j h
      show ((tickMachine machine (draws i) currentTime).1
          :: (simulateTickAux draws currentTime rest (i + 1)).1)[j]? = _
      cases j with
      | zero => simp
      | succ k =>
          have hk : k < rest.length := Nat.lt_of_succ_lt_succ h
          rw [List.getElem?_cons_succ, ih (i + 1) k hk]
          have harith : i + 1 + k = i + (k + 1) := by omega
          rw [harith]
          rfl

theorem simulateTickAux_events (draws : Nat → Draw) (currentTime : Int) :
    ∀ (machines : List Machine) (i : Nat) (ev : GenEvent),
      ev ∈ (simulateTickAux draws currentTime machines i).2 →
      ∃ j, ∃ h : j < machines.length,
        (tickMachine (machines.get ⟨j, h⟩) (draws (i + j)) currentTime).2 = some ev := by
  intro machines
  induction machines with
  | nil => intro i ev hmem; cases hmem
  | cons machine rest ih =>
      intro i ev hmem
      have hmem' : ev ∈ (match (tickMachine machine (draws i) currentTime).2 with
          | some e => e :: (simulateTickAux draws currentTime rest (i + 1)).2
          | none => (simulateTickAux draws currentTime rest (i + 1)).2) := hmem
      rcases hev : (tickMachine machine (draws i) currentTime).2 with _ | e
      · rw [hev] at hmem'
        rcases ih (i + 1) ev hmem' with ⟨j, hj, htick⟩
        refine ⟨j + 1, Nat.succ_lt_succ hj, ?_⟩
        have harith : i + (j + 1) = i + 1 + j := by omega
        rw [harith]
        exact htick
      · rw [hev] at hmem'
        rcases List.mem_cons.mp hmem' with rfl | hmem''
        · refine ⟨0, Nat.succ_pos _, ?_⟩
          rw [Nat.add_zero]
          exact hev
        · rcases ih (i + 1) ev hmem'' with ⟨j, hj, htick⟩
          refine ⟨j + 1, Nat.succ_lt_succ hj, ?_⟩
          have harith : i + (j + 1) = i + 1 + j := by omega
          rw [harith]
          exact htick

/-- Claim C9: for every machines list, draw stream and timestamp, each
event produced by one simulation tick comes from a machine whose newly
drawn status differs from its previous status and carries the severity
determined by the new status (DOWN→ALARM, IDLE→WARN, RUN→INFO) and that
machine's id; a machine whose status did not change produced no event. -/
theorem simulateTick_events_spec (machines : List Machine) (draws : Nat → Draw)
    (currentTime : Int) :
    (simulateTick machines draws currentTime).1.length = machines.length
    ∧ (∀ ev ∈ (simulateTick machines draws currentTime).2,
        ∃ j, ∃ h : j < machines.length,
          (simulateTick machines draws currentTime).1[j]?
              = some (tickMachine (machines.get ⟨j, h⟩) (draws j) currentTime).1
          ∧ (tickMachine (machines.get ⟨j, h⟩) (draws j) currentTime).2 = some ev
          ∧ (tickMachine (machines.get ⟨j, h⟩) (draws j) currentTime).1.status
              ≠ (machines.get ⟨j, h⟩).status
          ∧ ev.severity
              = severityForStatus (tickMachine (machines.get ⟨j, h⟩) (draws j) currentTime).1.status
          ∧ ev.machineId = (machines.get ⟨j, h⟩).id)
    ∧ (∀ j (h : j < machines.length),
        (tickMachine (machines.get ⟨j, h⟩) (draws j) currentTime).1.status
            = (machines.get ⟨j, h⟩).status →
          (tickMachine (machines.get ⟨j, h⟩) (draws j) currentTime).2 = none) := by
  refine ⟨simulateTickAux_length draws currentTime machines 0, ?_, ?_⟩
  · intro ev hmem
    rcases simulateTickAux_events draws currentTime machines 0 ev hmem with ⟨j, hj, htick⟩
    rw [Nat.zero_add] at htick
    rcases tickMachine_some _ _ _ _ htick with ⟨hstat, hsev, hid⟩
    refine ⟨j, hj, ?_, htick, hstat, hsev, hid⟩
    have := simulateTickAux_get draws currentTime machines 0 j hj
    rw [Nat.zero_add] at this
    exact this
  · intro j h hstat
    rcases hev : (tickMachine (machines.get ⟨j, h⟩) (draws j) currentTime).2 with _ | ev
    · rfl
    · rcases tickMachine_some _ _ _ _ hev with ⟨hne, _, _⟩
      exact absurd hstat hne

/-- Concrete instance of `simulateTick_events_spec`: a machine whose
change draw is at the probability threshold keeps its status and produces
no event. -/
theorem simulateTick_events_spec_witness :
    (tickMachine
        { id := 1, name := "M1", status := "RUN", lastHeartbeat := 0, healthScore := 100,
          unitsPerMin := 30 }
        ((fun _ => { changeVal := 1, statusIdx := 0, unitsVal := 0 : Draw }) 0) 5).2 = none := by
  have h := (simulateTick_events_spec
    [{ id := 1, name := "M1", status := "RUN", lastHeartbeat := 0, healthScore := 100,
       unitsPerMin := 30 }]
    (fun _ => { changeVal := 1, statusIdx := 0, unitsVal := 0 }) 5).2.2 0 (by decide)
  exact h (by norm_num [tickMachine, statusChangeProbability])

theorem ite_nil_singleton_eq_nil (c : Prop) [Decidable c] (e : String) :
    ((if c then ([] : List String) else [e]) = []) ↔ c := by
  split
  · simp_all
  · simp_all

theorem checklistItemErrors_eq_nil (s : String) (i : Nat) (it : JValue) :
    checklistItemErrors s i it = [] ↔ wellFormedItem it = true := by
  cases it with
  | null => simp [checklistItemErrors, wellFormedItem]
  | bool b => simp [checklistItemErrors, wellFormedItem]
  | str s' => simp [checklistItemErrors, wellFormedItem]
  | num q => simp [checklistItemErrors, wellFormedItem]
  | arr items => simp [checklistItemErrors, wellFormedItem, itemFieldErrors]
  | obj f =>
      simp only [checklistItemErrors, wellFormedItem, itemFieldErrors, List.append_eq_nil,
        Bool.and_eq_true]
      rcases jsonGet f "item" with _ | jv
      · simp
      · rcases jsonGet f "checked" with _ | cv
        · cases jv <;> simp
        · cases jv <;> cases cv <;> simp

theorem itemsErrors_eq_nil (s : String) :
    ∀ (items : List JValue) (i : Nat),
      itemsErrors s i items = [] ↔ items.all wellFormedItem = true := by
  intro items
  induction items with
  | nil => intro i; simp [itemsErrors]
  | cons it rest ih =>
      intro i
      simp only [itemsErrors, List.append_eq_nil, List.all_cons, Bool.and_eq_true,
        checklistItemErrors_eq_nil, ih (i + 1)]

theorem sectionErrors_eq_nil (s : String) (v : JValue) :
    sectionErrors s v = []
      ↔ (match v with
          | .arr items => items.all wellFormedItem
          | _ => false) = true := by
  cases v with
  | arr items => simp [sectionErrors, itemsErrors_eq_nil]
  | null => simp [sectionErrors]
  | bool b => simp [sectionErrors]
  | str s' => simp [sectionErrors]
  | num q => simp [sectionErrors]
  | obj f => simp [sectionErrors]

/-- Claim C2: `validateChecklistJSON` returns `valid = true` (with an
empty error list) exactly when its argument is a plain object containing
every one of the six required sections whose every section value is an
array of objects with a non-empty string `item` and boolean `checked`;
otherwise it returns `valid = false`, and for a document missing any one
required section the error list contains an error naming that section
(errors are collected over all sections, not fail-fast). -/
theorem validateChecklistJSON_spec (data : JValue) :
    ((validateChecklistJSON data).valid = true ↔ wellFormedChecklistDoc data = true)
    ∧ ((validateChecklistJSON data).valid = true → (validateChecklistJSON data).errors = [])
    ∧ (∀ fields s, data = JValue.obj fields → s ∈ REQUIRED_CHECKLIST_SECTIONS →
        (∀ kv ∈ fields, kv.1 ≠ s) →
        ("Missing required section: " ++ quoteName s) ∈ (validateChecklistJSON data).errors) := by
  refine ⟨?_, ?_, ?_⟩
  · cases data with
    | obj fields =>
        simp only [validateChecklistJSON, wellFormedChecklistDoc, List.isEmpty_iff,
          List.append_eq_nil, List.bind_eq_nil, List.all_eq_true, Bool.and_eq_true,
          sectionErrors_eq_nil, ite_nil_singleton_eq_nil]
    | null => simp [validateChecklistJSON, wellFormedChecklistDoc]
    | bool b => simp [validateChecklistJSON, wellFormedChecklistDoc]
    | str s' => simp [validateChecklistJSON, wellFormedChecklistDoc]
    | num q => simp [validateChecklistJSON, wellFormedChecklistDoc]
    | arr items => simp [validateChecklistJSON, wellFormedChecklistDoc]
  · cases data with
    | obj fields =>
        intro hv
        exact List.isEmpty_iff.mp hv
    | null => intro hv; cases hv
    | bool b => intro hv; cases hv
    | str s' => intro hv; cases hv
    | num q => intro hv; cases hv
    | arr items => intro hv; cases hv
  · intro fields s hdata hreq hnot
    subst hdata
    show _ ∈ REQUIRED_CHECKLIST_SECTIONS.flatMap _ ++ fields.flatMap _
    refine List.mem_append.mpr (Or.inl ?_)
    refine List.mem_flatMap.mpr ⟨s, hreq, ?_⟩
    have hany : fields.any (fun kv => kv.1 == s) = false := by
      rw [List.any_eq_false]
      intro kv hkv hbeq
      exact hnot kv hkv (beq_iff_eq.mp hbeq)
    rw [hany]
    simp

/-- Concrete instance of `validateChecklistJSON_spec`: a document holding
only a well-formed `Safety` section is invalid and its error list names
the missing `IO` section. -/
theorem validateChecklistJSON_spec_witness :
    ("Missing required section: " ++ quoteName "IO")
      ∈ (validateChecklistJSON (JValue.obj
          [("Safety", JValue.arr [JValue.obj
              [("item", JValue.str "Test"), ("checked", JValue.bool true)]])])).errors := by
  refine (validateChecklistJSON_spec (JValue.obj
      [("Safety", JValue.arr [JValue.obj
          [("item", JValue.str "Test"), ("checked", JValue.bool true)]])])).2.2
    _ "IO" rfl (by decide) ?_
  intro kv hkv
  rcases List.mem_singleton.mp hkv with rfl
  decide

end Scada
